import Mathlib

/-!
Verification development for the gong-mcp adapter (src/src/index.ts).

The embedding models JavaScript values as an inductive `JSValue`
(numbers as `Int`; the claims never exercise non-integer numerics),
JSON.stringify, JS truthiness and property access, the request-signing
pipeline (UTF-8, SHA-256, HMAC, base64 — the WebCrypto HMAC-SHA-256 and
`btoa` primitives called by the source are modelled by executable
definitions of those standard algorithms), the GongClient methods, the
argument validators, and the CallToolRequest router.  Network I/O is
modelled by an explicit `transport` oracle: producing an
`OutgoingRequest` models issuing the network call, and an
`Except.error` result from a client method models failing before any
network call is made.
-/

namespace GongMCP

/-- A JavaScript runtime value, as far as the adapter observes them:
`undefined`, `null`, booleans, (integer) numbers, strings, arrays and
plain objects with insertion-ordered fields. -/
inductive JSValue where
  | undefined : JSValue
  | null : JSValue
  | bool (b : Bool) : JSValue
  | num (n : Int) : JSValue
  | str (s : String) : JSValue
  | arr (elems : List JSValue) : JSValue
  | obj (fields : List (String × JSValue)) : JSValue
deriving Repr

mutual
/-- Structural equality test on modelled JS values. -/
def JSValue.beq : JSValue → JSValue → Bool
  | .undefined, .undefined => true
  | .null, .null => true
  | .bool a, .bool b => a == b
  | .num a, .num b => a == b
  | .str a, .str b => a == b
  | .arr xs, .arr ys => JSValue.beqList xs ys
  | .obj fs, .obj gs => JSValue.beqFields fs gs
  | _, _ => false

/-- Elementwise equality test on lists of JS values. -/
def JSValue.beqList : List JSValue → List JSValue → Bool
  | [], [] => true
  | x :: xs, y :: ys => JSValue.beq x y && JSValue.beqList xs ys
  | _, _ => false

/-- Fieldwise equality test on object field lists. -/
def JSValue.beqFields : List (String × JSValue) → List (String × JSValue) → Bool
  | [], [] => true
  | (k, v) :: fs, (k2, v2) :: gs => k == k2 && JSValue.beq v v2 && JSValue.beqFields fs gs
  | _, _ => false
end

mutual
/-- The equality test decides propositional equality. -/
theorem JSValue.beq_iff : ∀ (a b : JSValue), (JSValue.beq a b = true) ↔ a = b
  | .undefined, b => by cases b <;> simp [JSValue.beq]
  | .null, b => by cases b <;> simp [JSValue.beq]
  | .bool x, b => by cases b <;> simp [JSValue.beq]
  | .num x, b => by cases b <;> simp [JSValue.beq]
  | .str x, b => by cases b <;> simp [JSValue.beq]
  | .arr xs, b => by
    cases b <;> simp [JSValue.beq]
    exact JSValue.beqList_iff xs _
  | .obj fs, b => by
    cases b <;> simp [JSValue.beq]
    exact JSValue.beqFields_iff fs _

/-- List version of `JSValue.beq_iff`. -/
theorem JSValue.beqList_iff : ∀ (xs ys : List JSValue), (JSValue.beqList xs ys = true) ↔ xs = ys
  | [], ys => by cases ys <;> simp [JSValue.beqList]
  | x :: xs, ys => by
    cases ys <;> simp [JSValue.beqList]
    rw [JSValue.beq_iff, JSValue.beqList_iff]

/-- Field-list version of `JSValue.beq_iff`. -/
theorem JSValue.beqFields_iff :
    ∀ (fs gs : List (String × JSValue)), (JSValue.beqFields fs gs = true) ↔ fs = gs
  | [], gs => by cases gs <;> simp [JSValue.beqFields]
  | (k, v) :: fs, gs => by
    cases gs with
    | nil => simp [JSValue.beqFields]
    | cons g gs =>
      obtain ⟨k2, v2⟩ := g
      simp [JSValue.beqFields]
      rw [JSValue.beq_iff, JSValue.beqFields_iff]
end

instance : DecidableEq JSValue := fun a b => decidable_of_iff _ (JSValue.beq_iff a b)

/-- JS truthiness: `undefined`, `null`, `false`, `0` and `""` are falsy;
every array and object (including empty ones) is truthy. -/
def jsTruthy : JSValue → Bool
  | .undefined => false
  | .null => false
  | .bool b => b
  | .num n => n != 0
  | .str s => !s.isEmpty
  | .arr _ => true
  | .obj _ => true

/-- The JS `typeof` operator on modelled values (`typeof null` is
"object", as is `typeof` of any array). -/
def jsTypeof : JSValue → String
  | .undefined => "undefined"
  | .null => "object"
  | .bool _ => "boolean"
  | .num _ => "number"
  | .str _ => "string"
  | .arr _ => "object"
  | .obj _ => "object"

/-- Property read `v[k]`: first matching own field of an object,
`undefined` otherwise.  (Array index/length reads never occur in the
property accesses the adapter performs, so they are not modelled.) -/
def jsGet (v : JSValue) (k : String) : JSValue :=
  match v with
  | .obj fields =>
    match fields.find? (fun f => f.1 == k) with
    | some f => f.2
    | none => .undefined
  | _ => .undefined

/-- The JS `in` operator, restricted to own properties (plus array
`length`/indices); the adapter only applies it to plain objects. -/
def jsHasProp (v : JSValue) (k : String) : Bool :=
  match v with
  | .obj fields => fields.any (fun f => f.1 == k)
  | .arr elems =>
    match k.toNat? with
    | some i => i < elems.length
    | none => k == "length"
  | _ => false

/-- Whether the value is `null` (used to embed `args !== null`). -/
def jsIsNull : JSValue → Bool
  | .null => true
  | _ => false

/-- Array.isArray. -/
def jsIsArray : JSValue → Bool
  | .arr _ => true
  | _ => false

/-- JSON string escaping for one character, per JSON.stringify: quote,
backslash and control characters are escaped, everything else is kept. -/
def jsonEscapeChar (c : Char) : String :=
  if c = '"' then "\\\""
  else if c = '\\' then "\\\\"
  else if c = '\x08' then "\\b"
  else if c = '\x09' then "\\t"
  else if c = '\x0a' then "\\n"
  else if c = '\x0c' then "\\f"
  else if c = '\x0d' then "\\r"
  else if c.toNat < 32 then
    let hexDigit (n : Nat) : Char := if n < 10 then Char.ofNat (48 + n) else Char.ofNat (87 + n)
    "\\u00" ++ String.mk [hexDigit (c.toNat / 16), hexDigit (c.toNat % 16)]
  else String.mk [c]

/-- JSON quoting of a string value. -/
def jsonQuote (s : String) : String :=
  "\"" ++ String.join (s.data.map jsonEscapeChar) ++ "\""

mutual
/-- JSON.stringify of a value; `none` models the JS result `undefined`
(produced for `undefined` itself, which is then dropped inside objects
and rendered "null" inside arrays). -/
def jsonStringify : JSValue → Option String
  | .undefined => none
  | .null => some "null"
  | .bool b => some (if b then "true" else "false")
  | .num n => some (toString n)
  | .str s => some (jsonQuote s)
  | .arr elems => some ("[" ++ String.intercalate "," (jsonStringifyElems elems) ++ "]")
  | .obj fields => some ("\x7b" ++ String.intercalate "," (jsonStringifyFields fields) ++ "\x7d")

/-- Serialize array elements; an element serializing to `undefined`
appears as "null". -/
def jsonStringifyElems : List JSValue → List String
  | [] => []
  | v :: rest =>
    (match jsonStringify v with
     | some s => s
     | none => "null") :: jsonStringifyElems rest

/-- Serialize object fields; a field whose value serializes to
`undefined` is omitted. -/
def jsonStringifyFields : List (String × JSValue) → List String
  | [] => []
  | (k, v) :: rest =>
    match jsonStringify v with
    | some s => (jsonQuote k ++ ":" ++ s) :: jsonStringifyFields rest
    | none => jsonStringifyFields rest
end

/-! ### Byte-level primitives

UTF-8 encoding (TextEncoder.encode), SHA-256 and HMAC (the WebCrypto
HMAC-SHA-256 used by `generateSignature`), and base64 (`btoa` applied to
a binary string).  Bytes are naturals below 256; 32-bit words are
naturals below 2^32, reduced explicitly. -/

/-- UTF-8 encoding of one character (code points are valid scalar
values, so the four standard ranges cover everything). -/
def utf8Char (c : Char) : List Nat :=
  let n := c.toNat
  if n < 128 then [n]
  else if n < 2048 then [192 + n / 64, 128 + n % 64]
  else if n < 65536 then [224 + n / 4096, 128 + n / 64 % 64, 128 + n % 64]
  else [240 + n / 262144, 128 + n / 4096 % 64, 128 + n / 64 % 64, 128 + n % 64]

/-- UTF-8 encoding of a string as a byte list (TextEncoder.encode). -/
def utf8Encode (s : String) : List Nat :=
  s.data.foldr (fun c acc => utf8Char c ++ acc) []

/-- Reduction to a 32-bit word. -/
def w32 (n : Nat) : Nat := n % 4294967296

/-- Logical right shift within 32 bits. -/
def shr32 (x n : Nat) : Nat := x / 2 ^ n

/-- Right rotation of a 32-bit word. -/
def rotr32 (x n : Nat) : Nat := x / 2 ^ n + x % 2 ^ n * 2 ^ (32 - n)

/-- Bitwise complement of a 32-bit word. -/
def not32 (x : Nat) : Nat := 4294967295 - x

/-- SHA-256 choice function. -/
def shaCh (e f g : Nat) : Nat := (e &&& f) ^^^ (not32 e &&& g)

/-- SHA-256 majority function. -/
def shaMaj (a b c : Nat) : Nat := (a &&& b) ^^^ (a &&& c) ^^^ (b &&& c)

/-- SHA-256 big sigma 0. -/
def bsig0 (x : Nat) : Nat := rotr32 x 2 ^^^ rotr32 x 13 ^^^ rotr32 x 22

/-- SHA-256 big sigma 1. -/
def bsig1 (x : Nat) : Nat := rotr32 x 6 ^^^ rotr32 x 11 ^^^ rotr32 x 25

/-- SHA-256 small sigma 0. -/
def ssig0 (x : Nat) : Nat := rotr32 x 7 ^^^ rotr32 x 18 ^^^ shr32 x 3

/-- SHA-256 small sigma 1. -/
def ssig1 (x : Nat) : Nat := rotr32 x 17 ^^^ rotr32 x 19 ^^^ shr32 x 10

/-- The 64 SHA-256 round constants (fractional parts of the cube roots
of the first 64 primes), written in decimal. -/
def shaK : List Nat :=
  [1116352408, 1899447441, 3049323471, 3921009573,
   961987163, 1508970993, 2453635748, 2870763221,
   3624381080, 310598401, 607225278, 1426881987,
   1925078388, 2162078206, 2614888103, 3248222580,
   3835390401, 4022224774, 264347078, 604807628,
   770255983, 1249150122, 1555081692, 1996064986,
   2554220882, 2821834349, 2952996808, 3210313671,
   3336571891, 3584528711, 113926993, 338241895,
   666307205, 773529912, 1294757372, 1396182291,
   1695183700, 1986661051, 2177026350, 2456956037,
   2730485921, 2820302411, 3259730800, 3345764771,
   3516065817, 3600352804, 4094571909, 275423344,
   430227734, 506948616, 659060556, 883997877,
   958139571, 1322822218, 1537002063, 1747873779,
   1955562222, 2024104815, 2227730452, 2361852424,
   2428436474, 2756734187, 3204031479, 3329325298]

/-- Big-endian 8-byte encoding of a bit length. -/
def be64 (n : Nat) : List Nat :=
  [n / 2 ^ 56 % 256, n / 2 ^ 48 % 256, n / 2 ^ 40 % 256, n / 2 ^ 32 % 256,
   n / 2 ^ 24 % 256, n / 2 ^ 16 % 256, n / 2 ^ 8 % 256, n % 256]

/-- SHA-256 message padding: append 0x80, zero bytes to 56 mod 64, then
the 64-bit big-endian bit length. -/
def shaPad (msg : List Nat) : List Nat :=
  let len := msg.length
  let zeros := (64 + 56 - (len + 1) % 64) % 64
  msg ++ 128 :: List.replicate zeros 0 ++ be64 (8 * len)

/-- Split a byte list into 64-byte chunks. -/
def chunks64 (l : List Nat) : List (List Nat) :=
  if h : l = [] then []
  else l.take 64 :: chunks64 (l.drop 64)
termination_by l.length
decreasing_by
  have hl : 0 < l.length := List.length_pos.mpr h
  simp [List.length_drop]
  omega

/-- Big-endian packing of bytes into 32-bit words. -/
def bytesToWordsBE : List Nat → List Nat
  | b0 :: b1 :: b2 :: b3 :: rest =>
    (b0 * 16777216 + b1 * 65536 + b2 * 256 + b3) :: bytesToWordsBE rest
  | _ => []

/-- One message-schedule extension step: append the next word computed
from the words 2, 7, 15 and 16 back. -/
def stepW (w : List Nat) : List Nat :=
  let n := w.length
  w ++ [w32 (ssig1 (w.getD (n - 2) 0) + w.getD (n - 7) 0 + ssig0 (w.getD (n - 15) 0) + w.getD (n - 16) 0)]

/-- Iterate the schedule extension. -/
def extendW : Nat → List Nat → List Nat
  | 0, w => w
  | n + 1, w => extendW n (stepW w)

/-- Full 64-word message schedule from a 16-word block. -/
def schedule (m : List Nat) : List Nat := extendW 48 m

/-- The working state of the SHA-256 compression loop. -/
structure Sha8 where
  a : Nat
  b : Nat
  c : Nat
  d : Nat
  e : Nat
  f : Nat
  g : Nat
  h : Nat
deriving Repr, DecidableEq

/-- The SHA-256 initial hash value (fractional parts of the square
roots of the first 8 primes), written in decimal. -/
def shaInit : Sha8 :=
  ⟨1779033703, 3144134277, 1013904242, 2773480762,
   1359893119, 2600822924, 528734635, 1541459225⟩

/-- The 64 compression rounds, consuming `K[i] + W[i]` values. -/
def shaRounds : List Nat → Sha8 → Sha8
  | [], st => st
  | kw :: rest, st =>
    let t1 := w32 (st.h + bsig1 st.e + shaCh st.e st.f st.g + kw)
    let t2 := w32 (bsig0 st.a + shaMaj st.a st.b st.c)
    shaRounds rest ⟨w32 (t1 + t2), st.a, st.b, st.c, w32 (st.d + t1), st.e, st.f, st.g⟩

/-- Process one 512-bit block: run the rounds and add the result into
the chaining state. -/
def shaBlock (st : Sha8) (block : List Nat) : Sha8 :=
  let ws := schedule (bytesToWordsBE block)
  let kw := (shaK.zip ws).map (fun p => w32 (p.1 + p.2))
  let r := shaRounds kw st
  ⟨w32 (st.a + r.a), w32 (st.b + r.b), w32 (st.c + r.c), w32 (st.d + r.d),
   w32 (st.e + r.e), w32 (st.f + r.f), w32 (st.g + r.g), w32 (st.h + r.h)⟩

/-- Big-endian byte expansion of a list of 32-bit words. -/
def bytesOfWords : List Nat → List Nat
  | [] => []
  | w :: ws => w / 16777216 % 256 :: w / 65536 % 256 :: w / 256 % 256 :: w % 256 :: bytesOfWords ws

/-- SHA-256 of a byte list, as the 32-byte digest. -/
def sha256 (msg : List Nat) : List Nat :=
  let final := (chunks64 (shaPad msg)).foldl shaBlock shaInit
  bytesOfWords [final.a, final.b, final.c, final.d, final.e, final.f, final.g, final.h]

/-- HMAC-SHA-256 with an arbitrary-length key. -/
def hmacSha256 (key msg : List Nat) : List Nat :=
  let k0 := if 64 < key.length then sha256 key else key
  let kpad := k0 ++ List.replicate (64 - k0.length) 0
  let ipadded := kpad.map (fun b => b ^^^ 54)
  let opadded := kpad.map (fun b => b ^^^ 92)
  sha256 (opadded ++ sha256 (ipadded ++ msg))

/-- The standard base64 alphabet. -/
def base64Alphabet : List Char :=
  "ABCDEFGHIJKLMNOPQRSTUVWXYZabcdefghijklmnopqrstuvwxyz0123456789+/".data

/-- Character for a 6-bit group. -/
def b64c (n : Nat) : Char := base64Alphabet.getD n 'A'

/-- Standard base64 with padding of a byte list (what `btoa` returns on
the binary string built from the digest bytes). -/
def base64Encode : List Nat → String
  | [] => ""
  | [b0] => String.mk [b64c (b0 / 4), b64c (b0 % 4 * 16)] ++ "=="
  | [b0, b1] => String.mk [b64c (b0 / 4), b64c (b0 % 4 * 16 + b1 / 16), b64c (b1 % 16 * 4)] ++ "="
  | b0 :: b1 :: b2 :: rest =>
    String.mk [b64c (b0 / 4), b64c (b0 % 4 * 16 + b1 / 16), b64c (b1 % 16 * 4 + b2 / 64), b64c (b2 % 64)]
      ++ base64Encode rest

/-! ### The signature generator (GongClient.generateSignature) -/

/-- The payload segment of the string to sign: the template-literal
interpolation of `params ? JSON.stringify(params) : ''` — the empty
string when `params` is absent or falsy, otherwise its JSON
serialization (interpolating "undefined" in the unreachable case where a
truthy value fails to serialize). -/
def payloadSegment (params : Option JSValue) : String :=
  match params with
  | some p =>
    if jsTruthy p then
      match jsonStringify p with
      | some s => s
      | none => "undefined"
    else ""
  | none => ""

/-- The canonical string to sign, exactly as the source template literal
builds it: method, path, timestamp and payload segment joined by single
newlines. -/
def stringToSign (method path timestamp : String) (params : Option JSValue) : String :=
  method ++ "\n" ++ path ++ "\n" ++ timestamp ++ "\n" ++ payloadSegment params

/-- GongClient.generateSignature: base64 of the HMAC-SHA-256, keyed with
the access secret, of the canonical string (both UTF-8 encoded). -/
def generateSignature (accessSecret method path timestamp : String) (params : Option JSValue) : String :=
  base64Encode (hmacSha256 (utf8Encode accessSecret) (utf8Encode (stringToSign method path timestamp params)))

/-- Modelled from the spec (4.1 Canonicalization): method, path,
timestamp and the JSON-serialized payload — or the empty string if the
payload is absent — each separated by a single newline, in that order. -/
def spec_canonicalString (method path timestamp : String) (payload : Option JSValue) : String :=
  method ++ "\n" ++ path ++ "\n" ++ timestamp ++ "\n" ++
    (match payload with
     | some p =>
       match jsonStringify p with
       | some s => s
       | none => ""
     | none => "")

/-- Modelled from the spec (4.1 Algorithm): HMAC with SHA-256 keyed with
the access secret over the canonical string, digest bytes encoded with
standard padded base64. -/
def spec_signature (accessSecret method path timestamp : String) (payload : Option JSValue) : String :=
  base64Encode (hmacSha256 (utf8Encode accessSecret)
    (utf8Encode (spec_canonicalString method path timestamp payload)))

/-! ### Pretty serialization (JSON.stringify(value, null, 2)) used for
success envelopes. -/

/-- Indentation for a nesting depth (two spaces per level). -/
def indentOf (depth : Nat) : String := String.mk (List.replicate (2 * depth) ' ')

mutual
/-- JSON.stringify with indent 2 at a given depth. -/
def jsonPretty (depth : Nat) : JSValue → Option String
  | .undefined => none
  | .null => some "null"
  | .bool b => some (if b then "true" else "false")
  | .num n => some (toString n)
  | .str s => some (jsonQuote s)
  | .arr elems =>
    match elems with
    | [] => some "[]"
    | _ =>
      some ("[\n" ++ String.intercalate ",\n"
        ((jsonPrettyElems depth elems).map (fun s => indentOf (depth + 1) ++ s))
        ++ "\n" ++ indentOf depth ++ "]")
  | .obj fields =>
    match jsonPrettyFields depth fields with
    | [] => some "\x7b\x7d"
    | items =>
      some ("\x7b\n" ++ String.intercalate ",\n"
        (items.map (fun s => indentOf (depth + 1) ++ s))
        ++ "\n" ++ indentOf depth ++ "\x7d")

/-- Pretty-serialized array elements (undefined renders as "null"). -/
def jsonPrettyElems (depth : Nat) : List JSValue → List String
  | [] => []
  | v :: rest =>
    (match jsonPretty (depth + 1) v with
     | some s => s
     | none => "null") :: jsonPrettyElems depth rest

/-- Pretty-serialized object fields (undefined-valued fields dropped);
the key separator is a colon and a space under indentation. -/
def jsonPrettyFields (depth : Nat) : List (String × JSValue) → List String
  | [] => []
  | (k, v) :: rest =>
    match jsonPretty (depth + 1) v with
    | some s => (jsonQuote k ++ ": " ++ s) :: jsonPrettyFields depth rest
    | none => jsonPrettyFields depth rest
end

/-- JSON.stringify(response, null, 2) as the router applies it — at top
level, interpolating "undefined" in the unreachable undefined case. -/
def jsonStringifyPretty (v : JSValue) : String :=
  match jsonPretty 0 v with
  | some s => s
  | none => "undefined"

/-! ### The GongClient request builders -/

/-- The observable shape of one outgoing HTTP request: method, path,
query parameters and JSON body.  Producing a value of this type models
issuing the network call (headers carry the timestamp and the signature
of `generateSignature`; no claim inspects them). -/
structure OutgoingRequest where
  method : String
  path : String
  params : Option JSValue
  data : Option JSValue
deriving Repr, DecidableEq

/-- GongClient.listCalls: builds the query-parameter object, adding each
bound only when truthy, and issues GET /calls. -/
def listCalls (fromDateTime toDateTime : JSValue) : OutgoingRequest :=
  let params :=
    (if jsTruthy fromDateTime then [("fromDateTime", fromDateTime)] else []) ++
    (if jsTruthy toDateTime then [("toDateTime", toDateTime)] else [])
  { method := "GET", path := "/calls", params := some (.obj params), data := none }

/-- GongClient.retrieveTranscripts: fixed filter body around the given
call ids, POST /calls/transcript. -/
def retrieveTranscripts (callIds : JSValue) : OutgoingRequest :=
  { method := "POST", path := "/calls/transcript", params := none,
    data := some (.obj [("filter", .obj
      [("callIds", callIds),
       ("includeEntities", .bool true),
       ("includeInteractionsSummary", .bool true),
       ("includeTrackers", .bool true)])]) }

/-- The filter object built by retrieveCallDetails: starting from an
empty object, each of the five fields is appended exactly when its
argument value is truthy, in source order. -/
def callDetailsFilter (args : JSValue) : List (String × JSValue) :=
  (if jsTruthy (jsGet args "callIds") then [("callIds", jsGet args "callIds")] else []) ++
  (if jsTruthy (jsGet args "fromDateTime") then [("fromDateTime", jsGet args "fromDateTime")] else []) ++
  (if jsTruthy (jsGet args "toDateTime") then [("toDateTime", jsGet args "toDateTime")] else []) ++
  (if jsTruthy (jsGet args "primaryUserIds") then [("primaryUserIds", jsGet args "primaryUserIds")] else []) ++
  (if jsTruthy (jsGet args "cursor") then [("cursor", jsGet args "cursor")] else [])

/-- GongClient.retrieveCallDetails: rejects the call before any request
is built when none of callIds, fromDateTime, toDateTime, primaryUserIds
is truthy; otherwise issues POST /calls/extensive with the filter and a
content selector whose context is `args.context` when truthy and "Extended" otherwise. -/
def retrieveCallDetails (args : JSValue) : Except String OutgoingRequest :=
  if !jsTruthy (jsGet args "callIds") && !jsTruthy (jsGet args "fromDateTime") &&
     !jsTruthy (jsGet args "toDateTime") && !jsTruthy (jsGet args "primaryUserIds") then
    Except.error "At least one filter parameter is required"
  else
    Except.ok
      { method := "POST", path := "/calls/extensive", params := none,
        data := some (.obj
          [("filter", .obj (callDetailsFilter args)),
           ("contentSelector", .obj
             [("context",
               if jsTruthy (jsGet args "context") then jsGet args "context" else .str "Extended")])]) }

/-- The filter object of an outgoing request body. -/
def reqFilter (r : OutgoingRequest) : JSValue :=
  jsGet (r.data.getD .undefined) "filter"

/-- The content-selector context of an outgoing request body. -/
def reqContext (r : OutgoingRequest) : JSValue :=
  jsGet (jsGet (r.data.getD .undefined) "contentSelector") "context"

/-! ### Argument validators (type guards) -/

/-- isGongListCallsArgs: non-null object whose fromDateTime/toDateTime,
when present, are strings. -/
def isGongListCallsArgs (args : JSValue) : Bool :=
  (jsTypeof args == "object") && !jsIsNull args &&
  (!jsHasProp args "fromDateTime" || jsTypeof (jsGet args "fromDateTime") == "string") &&
  (!jsHasProp args "toDateTime" || jsTypeof (jsGet args "toDateTime") == "string")

/-- isGongRetrieveTranscriptsArgs: non-null object with a callIds field
that is an array of strings. -/
def isGongRetrieveTranscriptsArgs (args : JSValue) : Bool :=
  (jsTypeof args == "object") && !jsIsNull args &&
  jsHasProp args "callIds" &&
  jsIsArray (jsGet args "callIds") &&
  (match jsGet args "callIds" with
   | .arr xs => xs.all (fun x => jsTypeof x == "string")
   | _ => false)

/-- Whether a value is an array all of whose elements are strings. -/
def isStringArray (v : JSValue) : Bool :=
  jsIsArray v &&
  (match v with
   | .arr xs => xs.all (fun x => jsTypeof x == "string")
   | _ => false)

/-- isGongRetrieveCallDetailsArgs: non-null object whose fields, when
truthy, have the expected shapes (the source tests `!a.field ||`, so a
falsy field of the wrong type passes). -/
def isGongRetrieveCallDetailsArgs (args : JSValue) : Bool :=
  if !(jsTypeof args == "object") || jsIsNull args then false
  else
    (!jsTruthy (jsGet args "callIds") || isStringArray (jsGet args "callIds")) &&
    (!jsTruthy (jsGet args "fromDateTime") || jsTypeof (jsGet args "fromDateTime") == "string") &&
    (!jsTruthy (jsGet args "toDateTime") || jsTypeof (jsGet args "toDateTime") == "string") &&
    (!jsTruthy (jsGet args "primaryUserIds") || isStringArray (jsGet args "primaryUserIds")) &&
    (!jsTruthy (jsGet args "context") || jsTypeof (jsGet args "context") == "string") &&
    (!jsTruthy (jsGet args "cursor") || jsTypeof (jsGet args "cursor") == "string")

/-! ### The tool router (CallToolRequestSchema handler) -/

/-- The uniform response envelope (one text content item plus the error
flag). -/
structure Envelope where
  text : String
  isError : Bool
deriving Repr, DecidableEq

/-- The network layer as an oracle: a transport maps an outgoing request
to a parsed JSON response, or to the message of a thrown transport
error. -/
def Transport := OutgoingRequest → Except String JSValue

/-- The try-block body of the CallToolRequest handler: an
`Except.error` is a thrown exception (carrying its message), an
`Except.ok` is a returned envelope.  Note the unknown-tool arm returns
an envelope with the error flag set rather than throwing. -/
def handlerBody (transport : Transport) (name : String) (args : Option JSValue) :
    Except String Envelope :=
  let argv := args.getD .undefined
  if !jsTruthy argv then Except.error "No arguments provided"
  else if name == "list_calls" then
    if !isGongListCallsArgs argv then Except.error "Invalid arguments for list_calls"
    else
      match transport (listCalls (jsGet argv "fromDateTime") (jsGet argv "toDateTime")) with
      | .ok response => .ok { text := jsonStringifyPretty response, isError := false }
      | .error e => .error e
  else if name == "retrieve_transcripts" then
    if !isGongRetrieveTranscriptsArgs argv then Except.error "Invalid arguments for retrieve_transcripts"
    else
      match transport (retrieveTranscripts (jsGet argv "callIds")) with
      | .ok response => .ok { text := jsonStringifyPretty response, isError := false }
      | .error e => .error e
  else if name == "retrieve_call_details" then
    if !isGongRetrieveCallDetailsArgs argv then Except.error "Invalid arguments for retrieve_call_details"
    else
      match retrieveCallDetails argv with
      | .error e => .error e
      | .ok req =>
        match transport req with
        | .ok response => .ok { text := jsonStringifyPretty response, isError := false }
        | .error e => .error e
  else .ok { text := "Unknown tool: " ++ name, isError := true }

/-- The full CallToolRequest handler: the catch layer turns a thrown
message into an error envelope with the "Error: " prefix. -/
def handleCallToolRequest (transport : Transport) (name : String) (args : Option JSValue) :
    Envelope :=
  match handlerBody transport name args with
  | .ok env => env
  | .error msg => { text := "Error: " ++ msg, isError := true }

/-! ### Helper lemmas -/

/-- A property absent from a value reads as `undefined`. -/
theorem jsGet_of_not_hasProp (v : JSValue) (k : String)
    (h : jsHasProp v k = false) : jsGet v k = .undefined := by
  cases v <;> simp [jsGet]
  case obj fields =>
    simp only [jsHasProp, List.any_eq_false] at h
    have hnone : fields.find? (fun f => f.1 == k) = none := by
      rw [List.find?_eq_none]
      intro x hx
      simpa using h x hx
    rw [hnone]

/-- Reading any key from the empty object gives `undefined`. -/
theorem jsGet_obj_nil (k : String) : jsGet (.obj []) k = .undefined := rfl

/-- Reading a key from an object headed by some field: the head answers
when its key matches, otherwise the tail is consulted. -/
theorem jsGet_obj_cons (k k2 : String) (v : JSValue) (fs : List (String × JSValue)) :
    jsGet (.obj ((k2, v) :: fs)) k = if k2 == k then v else jsGet (.obj fs) k := by
  simp only [jsGet, List.find?]
  cases h : k2 == k <;> simp [h]

/-! ### C1 -/

/-- C1: a call-details invocation whose arguments contain none of
callIds, fromDateTime, toDateTime, primaryUserIds fails with
"At least one filter parameter is required" and issues no network call
(no `OutgoingRequest` is produced). -/
theorem claim_C1 (args : JSValue)
    (h1 : jsHasProp args "callIds" = false)
    (h2 : jsHasProp args "fromDateTime" = false)
    (h3 : jsHasProp args "toDateTime" = false)
    (h4 : jsHasProp args "primaryUserIds" = false) :
    retrieveCallDetails args = Except.error "At least one filter parameter is required" := by
  have e1 := jsGet_of_not_hasProp args "callIds" h1
  have e2 := jsGet_of_not_hasProp args "fromDateTime" h2
  have e3 := jsGet_of_not_hasProp args "toDateTime" h3
  have e4 := jsGet_of_not_hasProp args "primaryUserIds" h4
  simp [retrieveCallDetails, e1, e2, e3, e4, jsTruthy]

/-- Witness for C1 at the two inputs the claim singles out: the empty
argument object and an argument object whose only field is cursor. -/
theorem claim_C1_witness :
    retrieveCallDetails (.obj []) = Except.error "At least one filter parameter is required" ∧
    retrieveCallDetails (.obj [("cursor", .str "abc")]) =
      Except.error "At least one filter parameter is required" :=
  ⟨claim_C1 _ (by decide) (by decide) (by decide) (by decide),
   claim_C1 _ (by decide) (by decide) (by decide) (by decide)⟩

/-! ### C9 -/

/-- C9: callIds equal to the empty array (and no other selector) passes
the at-least-one-filter rule (arrays are truthy), and the issued request
body carries filter.callIds equal to the empty array. -/
theorem claim_C9 :
    retrieveCallDetails (.obj [("callIds", .arr [])]) = Except.ok
      { method := "POST", path := "/calls/extensive", params := none,
        data := some (.obj
          [("filter", .obj [("callIds", .arr [])]),
           ("contentSelector", .obj [("context", .str "Extended")])]) } ∧
    (retrieveCallDetails (.obj [("callIds", .arr [])])).map
        (fun r => jsGet (reqFilter r) "callIds") = Except.ok (.arr []) :=
  ⟨rfl, rfl⟩

/-! ### C4 -/

/-- C4 counterexample: a call-details invocation that supplies the
context string "" does not get "" used — the outgoing context is
"Extended". -/
theorem claim_C4_counterexample :
    jsGet (.obj [("callIds", .arr [.str "X"]), ("context", .str "")]) "context" = .str "" ∧
    (retrieveCallDetails (.obj [("callIds", .arr [.str "X"]), ("context", .str "")])).map
        reqContext = Except.ok (.str "Extended") ∧
    JSValue.str "Extended" ≠ JSValue.str "" :=
  ⟨rfl, rfl, by decide⟩

/-- C4 (amended): with at least one selector present, a missing context
field yields contentSelector.context "Extended", and a supplied
non-empty context string is used instead (the empty string falls back to
"Extended", being falsy). -/
theorem claim_C4 (args : JSValue) (req : OutgoingRequest)
    (hok : retrieveCallDetails args = Except.ok req) :
    (jsGet args "context" = .undefined → reqContext req = .str "Extended") ∧
    (∀ s : String, jsGet args "context" = .str s → s ≠ "" → reqContext req = .str s) := by
  unfold retrieveCallDetails at hok
  split at hok
  · exact absurd hok (by simp)
  · injection hok with hreq
    subst hreq
    have hred : reqContext
        { method := "POST", path := "/calls/extensive", params := none,
          data := some (.obj
            [("filter", .obj (callDetailsFilter args)),
             ("contentSelector", .obj
               [("context",
                 if jsTruthy (jsGet args "context") then jsGet args "context"
                 else .str "Extended")])]) } =
        if jsTruthy (jsGet args "context") then jsGet args "context" else .str "Extended" := rfl
    constructor
    · intro hget
      rw [hred, hget]
      simp [jsTruthy]
    · intro s hget hs
      have hne : s.isEmpty = false := by
        cases he : s.isEmpty
        · rfl
        · exact absurd ((String.isEmpty_iff s).mp he) hs
      rw [hred, hget]
      simp [jsTruthy, hne]

/-- Witness for C4 at callIds ["X"] with no context field. -/
theorem claim_C4_witness :
    reqContext
      { method := "POST", path := "/calls/extensive", params := none,
        data := some (.obj
          [("filter", .obj [("callIds", .arr [.str "X"])]),
           ("contentSelector", .obj [("context", .str "Extended")])]) } = .str "Extended" :=
  (claim_C4 (.obj [("callIds", .arr [.str "X"])]) _ rfl).1 rfl

/-! ### C8 -/

/-- C8 counterexample: cursor is supplied as "" (a provided field), yet
the transmitted filter omits cursor (reads back `undefined`, not ""). -/
theorem claim_C8_counterexample :
    jsGet (.obj [("callIds", .arr [.str "a"]), ("cursor", .str "")]) "cursor" = .str "" ∧
    (retrieveCallDetails (.obj [("callIds", .arr [.str "a"]), ("cursor", .str "")])).map
        (fun r => jsGet (reqFilter r) "cursor") = Except.ok .undefined ∧
    JSValue.undefined ≠ JSValue.str "" :=
  ⟨rfl, rfl, by decide⟩

/-- C8 (amended): for a call-details invocation that passes the rule,
each argument field among callIds, fromDateTime, toDateTime,
primaryUserIds, cursor whose value is truthy (arrays; non-empty
strings) is copied verbatim into the outgoing filter; a provided but
falsy field (such as the empty string) is omitted instead. -/
theorem claim_C8 (args : JSValue) (req : OutgoingRequest)
    (hok : retrieveCallDetails args = Except.ok req) :
    ∀ k, k ∈ ["callIds", "fromDateTime", "toDateTime", "primaryUserIds", "cursor"] →
      jsTruthy (jsGet args k) = true →
      jsGet (reqFilter req) k = jsGet args k := by
  unfold retrieveCallDetails at hok
  split at hok
  · exact absurd hok (by simp)
  · injection hok with hreq
    subst hreq
    have hred : reqFilter
        { method := "POST", path := "/calls/extensive", params := none,
          data := some (.obj
            [("filter", .obj (callDetailsFilter args)),
             ("contentSelector", .obj
               [("context",
                 if jsTruthy (jsGet args "context") then jsGet args "context"
                 else .str "Extended")])]) } = .obj (callDetailsFilter args) := rfl
    intro k hk ht
    rw [hred]
    fin_cases hk
    · simp [callDetailsFilter, ht, jsGet_obj_cons]
    · cases h1 : jsTruthy (jsGet args "callIds") <;>
        simp [callDetailsFilter, ht, h1, jsGet_obj_cons]
    · cases h1 : jsTruthy (jsGet args "callIds") <;>
        cases h2 : jsTruthy (jsGet args "fromDateTime") <;>
        simp [callDetailsFilter, ht, h1, h2, jsGet_obj_cons]
    · cases h1 : jsTruthy (jsGet args "callIds") <;>
        cases h2 : jsTruthy (jsGet args "fromDateTime") <;>
        cases h3 : jsTruthy (jsGet args "toDateTime") <;>
        simp [callDetailsFilter, ht, h1, h2, h3, jsGet_obj_cons]
    · cases h1 : jsTruthy (jsGet args "callIds") <;>
        cases h2 : jsTruthy (jsGet args "fromDateTime") <;>
        cases h3 : jsTruthy (jsGet args "toDateTime") <;>
        cases h4 : jsTruthy (jsGet args "primaryUserIds") <;>
        simp [callDetailsFilter, ht, h1, h2, h3, h4, jsGet_obj_cons]

/-- Witness for C8: with fromDateTime and cursor supplied (the
pagination-continuation scenario), the transmitted filter.cursor equals
the supplied cursor string. -/
theorem claim_C8_witness :
    jsGet (reqFilter
      { method := "POST", path := "/calls/extensive", params := none,
        data := some (.obj
          [("filter", .obj
            [("fromDateTime", .str "2024-03-01T00:00:00Z"), ("cursor", .str "abc")]),
           ("contentSelector", .obj [("context", .str "Extended")])]) }) "cursor" =
    jsGet (.obj [("fromDateTime", .str "2024-03-01T00:00:00Z"), ("cursor", .str "abc")]) "cursor" :=
  claim_C8 (.obj [("fromDateTime", .str "2024-03-01T00:00:00Z"), ("cursor", .str "abc")])
    _ rfl "cursor" (by decide) (by decide)

/-! ### C10 -/

/-- C10: an empty-string fromDateTime, toDateTime or cursor is omitted
from the outgoing filter; empty-string time bounds do not count toward
the at-least-one-selector rule; an empty-string context yields
contentSelector.context "Extended". -/
theorem claim_C10 (args : JSValue) :
    (jsGet args "fromDateTime" = .str "" →
      jsGet (.obj (callDetailsFilter args)) "fromDateTime" = .undefined) ∧
    (jsGet args "toDateTime" = .str "" →
      jsGet (.obj (callDetailsFilter args)) "toDateTime" = .undefined) ∧
    (jsGet args "cursor" = .str "" →
      jsGet (.obj (callDetailsFilter args)) "cursor" = .undefined) ∧
    (jsGet args "fromDateTime" = .str "" → jsGet args "toDateTime" = .str "" →
      jsTruthy (jsGet args "callIds") = false → jsTruthy (jsGet args "primaryUserIds") = false →
      retrieveCallDetails args = Except.error "At least one filter parameter is required") ∧
    (jsGet args "context" = .str "" → ∀ req, retrieveCallDetails args = Except.ok req →
      reqContext req = .str "Extended") := by
  refine ⟨?_, ?_, ?_, ?_, ?_⟩
  · intro hget
    have ht : jsTruthy (jsGet args "fromDateTime") = false := by rw [hget]; rfl
    cases h1 : jsTruthy (jsGet args "callIds") <;>
      cases h3 : jsTruthy (jsGet args "toDateTime") <;>
      cases h4 : jsTruthy (jsGet args "primaryUserIds") <;>
      cases h5 : jsTruthy (jsGet args "cursor") <;>
      simp [callDetailsFilter, ht, h1, h3, h4, h5, jsGet_obj_cons, jsGet_obj_nil]
  · intro hget
    have ht : jsTruthy (jsGet args "toDateTime") = false := by rw [hget]; rfl
    cases h1 : jsTruthy (jsGet args "callIds") <;>
      cases h2 : jsTruthy (jsGet args "fromDateTime") <;>
      cases h4 : jsTruthy (jsGet args "primaryUserIds") <;>
      cases h5 : jsTruthy (jsGet args "cursor") <;>
      simp [callDetailsFilter, ht, h1, h2, h4, h5, jsGet_obj_cons, jsGet_obj_nil]
  · intro hget
    have ht : jsTruthy (jsGet args "cursor") = false := by rw [hget]; rfl
    cases h1 : jsTruthy (jsGet args "callIds") <;>
      cases h2 : jsTruthy (jsGet args "fromDateTime") <;>
      cases h3 : jsTruthy (jsGet args "toDateTime") <;>
      cases h4 : jsTruthy (jsGet args "primaryUserIds") <;>
      simp [callDetailsFilter, ht, h1, h2, h3, h4, jsGet_obj_cons, jsGet_obj_nil]
  · intro hfrom hto hcall hprim
    have ht1 : jsTruthy (jsGet args "fromDateTime") = false := by rw [hfrom]; rfl
    have ht2 : jsTruthy (jsGet args "toDateTime") = false := by rw [hto]; rfl
    simp [retrieveCallDetails, ht1, ht2, hcall, hprim]
  · intro hget req hok
    unfold retrieveCallDetails at hok
    split at hok
    · exact absurd hok (by simp)
    · injection hok with hreq
      subst hreq
      have hred : reqContext
          { method := "POST", path := "/calls/extensive", params := none,
            data := some (.obj
              [("filter", .obj (callDetailsFilter args)),
               ("contentSelector", .obj
                 [("context",
                   if jsTruthy (jsGet args "context") then jsGet args "context"
                   else .str "Extended")])]) } =
          if jsTruthy (jsGet args "context") then jsGet args "context" else .str "Extended" := rfl
      rw [hred, hget]
      simp [jsTruthy]
      rfl

/-- Witness for C10 at an argument object carrying empty-string
fromDateTime, toDateTime, cursor and context. -/
theorem claim_C10_witness :
    jsGet (.obj (callDetailsFilter
      (.obj [("fromDateTime", .str ""), ("toDateTime", .str ""),
             ("cursor", .str ""), ("context", .str "")]))) "cursor" = .undefined ∧
    retrieveCallDetails
      (.obj [("fromDateTime", .str ""), ("toDateTime", .str ""),
             ("cursor", .str ""), ("context", .str "")]) =
      Except.error "At least one filter parameter is required" :=
  ⟨(claim_C10 _).2.2.1 rfl,
   (claim_C10 _).2.2.2.1 rfl rfl rfl rfl⟩

/-! ### C7 -/

/-- A value is non-null with `typeof` "object" iff it is not null and
its `jsIsNull` test is false. -/
theorem jsIsNull_eq_false (v : JSValue) : jsIsNull v = false ↔ v ≠ .null := by
  cases v <;> simp [jsIsNull]

/-- A value has `typeof` "string" iff it is a string. -/
theorem jsTypeof_eq_string (v : JSValue) : jsTypeof v = "string" ↔ ∃ s, v = .str s := by
  cases v <;> simp [jsTypeof]

/-- Modelled from the spec: the retrieve-transcripts validator accepts
exactly the non-null objects containing a callIds field that is an array
whose every element is a string. -/
def specTranscriptsArgsOk (args : JSValue) : Prop :=
  jsTypeof args = "object" ∧ args ≠ JSValue.null ∧
  jsHasProp args "callIds" = true ∧
  ∃ xs, jsGet args "callIds" = .arr xs ∧ ∀ x ∈ xs, ∃ s, x = .str s

/-- C7: the retrieve-transcripts validator returns true exactly on
non-null objects whose callIds field is an array of strings; in
particular it rejects the empty object and a string-valued callIds and
accepts a two-string callIds array.  (It is a total Lean function over
the value model, so it performs no mutation or I/O and returns false
rather than raising on malformed input.) -/
theorem claim_C7 :
    (∀ args, isGongRetrieveTranscriptsArgs args = true ↔ specTranscriptsArgsOk args) ∧
    isGongRetrieveTranscriptsArgs (.obj []) = false ∧
    isGongRetrieveTranscriptsArgs (.obj [("callIds", .str "not-an-array")]) = false ∧
    isGongRetrieveTranscriptsArgs (.obj [("callIds", .arr [.str "a", .str "b"])]) = true := by
  refine ⟨?_, by decide, by decide, by decide⟩
  intro args
  unfold isGongRetrieveTranscriptsArgs specTranscriptsArgsOk
  cases hg : jsGet args "callIds" <;>
    simp [jsIsArray, jsIsNull_eq_false, jsTypeof_eq_string, List.all_eq_true, and_assoc]

/-! ### Substring testing (for the envelope-content claims) -/

/-- A list is a prefix of itself extended by anything. -/
theorem isPrefixOf_append_self (l r : List Char) : l.isPrefixOf (l ++ r) = true := by
  induction l with
  | nil => simp [List.isPrefixOf]
  | cons c cs ih => simp [List.isPrefixOf, ih]

/-- Executable test for a contiguous occurrence of `pat` in the list. -/
def hasSubList (pat : List Char) : List Char → Bool
  | [] => pat.isEmpty
  | c :: rest => pat.isPrefixOf (c :: rest) || hasSubList pat rest

/-- Executable substring test on strings. -/
def strHasSub (s pat : String) : Bool := hasSubList pat.data s.data

/-- A pattern occurs in any list it starts. -/
theorem subListAtStart (pat rest : List Char) : hasSubList pat (pat ++ rest) = true := by
  cases pat with
  | nil => cases rest <;> simp [hasSubList, List.isPrefixOf]
  | cons c cs => simp [hasSubList, isPrefixOf_append_self]

/-- A pattern occurs in any list it ends. -/
theorem subListAtEnd (pre pat : List Char) : hasSubList pat (pre ++ pat) = true := by
  induction pre with
  | nil => simpa using subListAtStart pat []
  | cons c cs ih => simp [hasSubList, ih]

/-! ### C6 -/

/-- A concrete transport whose every request fails, for closed
statements about handler paths that never reach the network. -/
def errTransport : Transport := fun _ => Except.error "network unreachable"

/-- C6 counterexample: a request with an unknown tool name but missing
arguments produces the error envelope "Error: No arguments provided",
which does not name the unknown tool. -/
theorem claim_C6_counterexample :
    handleCallToolRequest errTransport "bogus_tool" none =
      { text := "Error: No arguments provided", isError := true } ∧
    strHasSub "Error: No arguments provided" "Unknown tool" = false :=
  ⟨rfl, by decide⟩

/-- C6 (amended): a tool-invocation request with truthy arguments whose
name matches no catalog tool returns, without throwing, the error
envelope "Unknown tool: " ++ name, whose text contains both
"Unknown tool" and the requested name. -/
theorem claim_C6 (transport : Transport) (name : String) (args : JSValue)
    (hargs : jsTruthy args = true)
    (h1 : name ≠ "list_calls") (h2 : name ≠ "retrieve_transcripts")
    (h3 : name ≠ "retrieve_call_details") :
    handleCallToolRequest transport name (some args) =
      { text := "Unknown tool: " ++ name, isError := true } ∧
    strHasSub ("Unknown tool: " ++ name) "Unknown tool" = true ∧
    strHasSub ("Unknown tool: " ++ name) name = true := by
  have hb1 : (name == "list_calls") = false := beq_eq_false_iff_ne.mpr h1
  have hb2 : (name == "retrieve_transcripts") = false := beq_eq_false_iff_ne.mpr h2
  have hb3 : (name == "retrieve_call_details") = false := beq_eq_false_iff_ne.mpr h3
  have hdata : ("Unknown tool: " ++ name).data = "Unknown tool".data ++ (": ".data ++ name.data) := by
    have hsplit : ("Unknown tool: " : String).data = "Unknown tool".data ++ ": ".data := by decide
    rw [String.data_append, hsplit, List.append_assoc]
  refine ⟨?_, ?_, ?_⟩
  · simp [handleCallToolRequest, handlerBody, Option.getD, hargs, hb1, hb2, hb3]
  · show hasSubList ("Unknown tool" : String).data ("Unknown tool: " ++ name).data = true
    rw [hdata]
    exact subListAtStart _ _
  · show hasSubList name.data ("Unknown tool: " ++ name).data = true
    rw [String.data_append]
    exact subListAtEnd _ _

/-- Witness for C6 at a concrete unknown tool name. -/
theorem claim_C6_witness :
    handleCallToolRequest errTransport "bogus_tool" (some (.obj [])) =
      { text := "Unknown tool: " ++ "bogus_tool", isError := true } ∧
    strHasSub ("Unknown tool: " ++ "bogus_tool") "Unknown tool" = true ∧
    strHasSub ("Unknown tool: " ++ "bogus_tool") "bogus_tool" = true :=
  claim_C6 errTransport "bogus_tool" (.obj []) rfl (by decide) (by decide) (by decide)

/-! ### C3 -/

/-- C3 counterexample: the unknown-tool error envelope (isError true)
has text "Unknown tool: bogus_tool", which is not "Error: " followed by
anything. -/
theorem claim_C3_counterexample :
    handleCallToolRequest errTransport "bogus_tool" (some (.obj [])) =
      { text := "Unknown tool: bogus_tool", isError := true } ∧
    ¬ ∃ m : String, ("Unknown tool: bogus_tool" : String) = "Error: " ++ m := by
  refine ⟨rfl, ?_⟩
  rintro ⟨m, hm⟩
  have hpre : ("Error: " : String).data.isPrefixOf ("Unknown tool: bogus_tool" : String).data = true := by
    rw [hm, String.data_append]
    exact isPrefixOf_append_self _ _
  exact absurd hpre (by decide)

/-- C3 (amended): every error envelope arising from a thrown failure
(validation, business rule, transport) carries "Error: " followed by the
thrown message; the only other error envelope is the unknown-tool one,
whose text is "Unknown tool: " followed by the requested name. -/
theorem claim_C3 (transport : Transport) (name : String) (args : Option JSValue)
    (env : Envelope) (henv : handleCallToolRequest transport name args = env)
    (herr : env.isError = true) :
    (∃ msg, handlerBody transport name args = Except.error msg ∧ env.text = "Error: " ++ msg) ∨
    env.text = "Unknown tool: " ++ name := by
  unfold handleCallToolRequest at henv
  cases hb : handlerBody transport name args with
  | error msg =>
    rw [hb] at henv
    exact Or.inl ⟨msg, rfl, by rw [← henv]⟩
  | ok e =>
    rw [hb] at henv
    subst henv
    right
    simp only [handlerBody] at hb
    iterate 12 (all_goals try split at hb)
    all_goals cases hb
    all_goals first
      | rfl
      | simp at herr

/-- Witness for C3 at a concrete unknown-tool invocation. -/
theorem claim_C3_witness :
    (∃ msg, handlerBody errTransport "bogus_tool" (some (.obj [])) = Except.error msg ∧
      (Envelope.mk ("Unknown tool: " ++ "bogus_tool") true).text = "Error: " ++ msg) ∨
    (Envelope.mk ("Unknown tool: " ++ "bogus_tool") true).text = "Unknown tool: " ++ "bogus_tool" :=
  claim_C3 errTransport "bogus_tool" (some (.obj []))
    { text := "Unknown tool: " ++ "bogus_tool", isError := true } rfl rfl

/-! ### C2 -/

/-- C2: on the payloads the dispatcher passes (a record object, or
nothing), the signature generator returns the padded standard base64 of
the HMAC-SHA-256, keyed with the access secret, of
method\npath\ntimestamp\npayload-serialization, where an absent payload
contributes the empty string (never "undefined" or "null"). -/
theorem claim_C2 (secret method path timestamp : String) (payload : Option JSValue)
    (hpayload : payload = none ∨ ∃ fields, payload = some (.obj fields)) :
    generateSignature secret method path timestamp payload =
      spec_signature secret method path timestamp payload := by
  rcases hpayload with h | ⟨fields, h⟩ <;> subst h <;> rfl

/-- Witness for C2 with an absent payload and a concrete request
shape. -/
theorem claim_C2_witness :
    generateSignature "secret" "GET" "/calls" "2024-03-01T00:00:00Z" none =
      spec_signature "secret" "GET" "/calls" "2024-03-01T00:00:00Z" none ∧
    generateSignature "secret" "POST" "/calls/extensive" "2024-03-01T00:00:00Z"
        (some (.obj [("filter", .obj [("callIds", .arr [.str "123"])])])) =
      spec_signature "secret" "POST" "/calls/extensive" "2024-03-01T00:00:00Z"
        (some (.obj [("filter", .obj [("callIds", .arr [.str "123"])])])) :=
  ⟨claim_C2 "secret" "GET" "/calls" "2024-03-01T00:00:00Z" none (Or.inl rfl),
   claim_C2 "secret" "POST" "/calls/extensive" "2024-03-01T00:00:00Z" _
     (Or.inr ⟨[("filter", .obj [("callIds", .arr [.str "123"])])], rfl⟩)⟩

/-! ### C5 -/

/-- Word expansion produces four bytes per word. -/
theorem bytesOfWords_length (l : List Nat) : (bytesOfWords l).length = 4 * l.length := by
  induction l with
  | nil => rfl
  | cons w ws ih =>
    simp [bytesOfWords, ih]
    omega

/-- Word expansion produces bytes below 256. -/
theorem bytesOfWords_lt (l : List Nat) : ∀ x ∈ bytesOfWords l, x < 256 := by
  induction l with
  | nil => simp [bytesOfWords]
  | cons w ws ih =>
    intro x hx
    simp [bytesOfWords] at hx
    rcases hx with rfl | rfl | rfl | rfl | hx
    · omega
    · omega
    · omega
    · omega
    · exact ih x hx

/-- A SHA-256 digest has 32 bytes. -/
theorem sha256_length (msg : List Nat) : (sha256 msg).length = 32 := by
  simp [sha256, bytesOfWords_length]

/-- SHA-256 digest entries are bytes. -/
theorem sha256_lt (msg : List Nat) : ∀ x ∈ sha256 msg, x < 256 := by
  intro x hx
  exact bytesOfWords_lt _ x hx

/-- An HMAC-SHA-256 digest has 32 bytes. -/
theorem hmacSha256_length (key msg : List Nat) : (hmacSha256 key msg).length = 32 :=
  sha256_length _

/-- HMAC-SHA-256 digest entries are bytes. -/
theorem hmacSha256_lt (key msg : List Nat) : ∀ x ∈ hmacSha256 key msg, x < 256 :=
  sha256_lt _

/-- Rebuilding a 32-element list from its entries. -/
theorem ofFn_get_eq (l : List Nat) (h : l.length = 32) :
    List.ofFn (fun i : Fin 32 => l.get ⟨(i : Nat), by rw [h]; exact i.isLt⟩) = l := by
  apply List.ext_getElem
  · simp [h]
  · intro i h1 h2
    rw [List.getElem_ofFn]
    simp [List.get_eq_getElem]

/-- C5 counterexample (nonconstructive): the signature generator maps
infinitely many distinct inputs into the finite set of base64 strings of
32-byte digests, so by pigeonhole some two inputs differing in a
component share a signature — universal signature sensitivity is false. -/
theorem claim_C5_counterexample :
    ¬ (∀ (m p t : String) (payload : Option JSValue) (s : String)
         (m2 p2 t2 : String) (payload2 : Option JSValue) (s2 : String),
        (m ≠ m2 ∨ p ≠ p2 ∨ t ≠ t2 ∨ payload ≠ payload2 ∨ s ≠ s2) →
        generateSignature s m p t payload ≠ generateSignature s2 m2 p2 t2 payload2) := by
  intro hclaim
  have hinj : Function.Injective
      (fun n : ℕ => generateSignature "s" "GET" "/calls" (String.mk (List.replicate n 'a')) none) := by
    intro a b hab
    by_contra hne
    have hts : String.mk (List.replicate a 'a') ≠ String.mk (List.replicate b 'a') := by
      intro he
      apply hne
      have hlen := congrArg (fun s : String => s.data.length) he
      simpa using hlen
    exact hclaim "GET" "/calls" (String.mk (List.replicate a 'a')) none "s"
      "GET" "/calls" (String.mk (List.replicate b 'a')) none "s"
      (Or.inr (Or.inr (Or.inl hts))) hab
  have hsub : Set.range
        (fun n : ℕ => generateSignature "s" "GET" "/calls" (String.mk (List.replicate n 'a')) none) ⊆
      (fun v : Fin 32 → Fin 256 => base64Encode (List.ofFn (fun i => (v i : Nat)))) '' Set.univ := by
    rintro x ⟨n, rfl⟩
    have hlen : (hmacSha256 (utf8Encode "s")
        (utf8Encode (stringToSign "GET" "/calls" (String.mk (List.replicate n 'a')) none))).length = 32 :=
      hmacSha256_length _ _
    have hlt := hmacSha256_lt (utf8Encode "s")
        (utf8Encode (stringToSign "GET" "/calls" (String.mk (List.replicate n 'a')) none))
    refine ⟨fun i =>
      ⟨(hmacSha256 (utf8Encode "s")
          (utf8Encode (stringToSign "GET" "/calls" (String.mk (List.replicate n 'a')) none))).get
            ⟨(i : Nat), by rw [hlen]; exact i.isLt⟩,
        hlt _ (List.get_mem _ _ _)⟩, trivial, ?_⟩
    show base64Encode _ = _
    rw [ofFn_get_eq _ hlen]
    rfl
  have hfin : (Set.range
      (fun n : ℕ => generateSignature "s" "GET" "/calls" (String.mk (List.replicate n 'a')) none)).Finite :=
    (Set.finite_univ.image _).subset hsub
  exact Set.infinite_range_of_injective hinj hfin

/-- Splitting a separated concatenation: when neither left part contains
the separator, equal concatenations have equal parts. -/
theorem sep_split (sep : Char) : ∀ (l1 l2 r1 r2 : List Char),
    sep ∉ l1 → sep ∉ l2 → l1 ++ sep :: r1 = l2 ++ sep :: r2 → l1 = l2 ∧ r1 = r2
  | [], [], r1, r2, _, _, heq => by simpa using heq
  | [], c :: cs, r1, r2, _, h2, heq => by
    simp at heq
    obtain ⟨hc, -⟩ := heq
    subst hc
    simp at h2
  | a :: as, [], r1, r2, h1, _, heq => by
    simp at heq
    obtain ⟨hc, -⟩ := heq
    subst hc
    simp at h1
  | a :: as, b :: bs, r1, r2, h1, h2, heq => by
    simp at heq
    obtain ⟨hab, hrest⟩ := heq
    subst hab
    have h1x : sep ∉ as := fun hm => h1 (List.mem_cons_of_mem _ hm)
    have h2x : sep ∉ bs := fun hm => h2 (List.mem_cons_of_mem _ hm)
    obtain ⟨he, hr⟩ := sep_split sep as bs r1 r2 h1x h2x hrest
    exact ⟨by rw [he], hr⟩

/-- C5 (amended): at the canonical-string level, for inputs whose
method, path and timestamp contain no newline, the canonical string
determines method, path, timestamp and the serialized payload segment
(so changing any of them changes the canonical string; the secret enters
only as the MAC key); and payload `obj []` versus an absent payload
canonicalize differently ("\x7b\x7d" versus "").  Signature-level
distinctness for all pairs is refuted by the finite-digest pigeonhole
counterexample. -/
theorem claim_C5 :
    (∀ (m p t : String) (payload : Option JSValue) (m2 p2 t2 : String) (payload2 : Option JSValue),
      '\n' ∉ m.data → '\n' ∉ p.data → '\n' ∉ t.data →
      '\n' ∉ m2.data → '\n' ∉ p2.data → '\n' ∉ t2.data →
      stringToSign m p t payload = stringToSign m2 p2 t2 payload2 →
      m = m2 ∧ p = p2 ∧ t = t2 ∧ payloadSegment payload = payloadSegment payload2) ∧
    payloadSegment (some (.obj [])) = "\x7b\x7d" ∧
    payloadSegment none = "" ∧
    stringToSign "POST" "/calls/extensive" "T" (some (.obj [])) ≠
      stringToSign "POST" "/calls/extensive" "T" none := by
  refine ⟨?_, rfl, rfl, by decide⟩
  intro m p t payload m2 p2 t2 payload2 hm hp ht hm2 hp2 ht2 heq
  have hd := congrArg String.data heq
  simp only [stringToSign, String.data_append, List.append_assoc] at hd
  simp only [List.singleton_append, List.cons_append] at hd
  obtain ⟨hm12, hd2⟩ := sep_split '\n' m.data m2.data _ _ hm hm2 hd
  obtain ⟨hp12, hd3⟩ := sep_split '\n' p.data p2.data _ _ hp hp2 hd2
  obtain ⟨ht12, hd4⟩ := sep_split '\n' t.data t2.data _ _ ht ht2 hd3
  exact ⟨String.ext hm12, String.ext hp12, String.ext ht12, String.ext hd4⟩

/-- Witness for the amended C5 at concrete newline-free inputs. -/
theorem claim_C5_witness :
    ("GET" : String) = "GET" ∧ ("/calls" : String) = "/calls" ∧
    ("2024-03-01T00:00:00Z" : String) = "2024-03-01T00:00:00Z" ∧
    payloadSegment none = payloadSegment none :=
  claim_C5.1 "GET" "/calls" "2024-03-01T00:00:00Z" none
    "GET" "/calls" "2024-03-01T00:00:00Z" none
    (by decide) (by decide) (by decide) (by decide) (by decide) (by decide) rfl

end GongMCP
